import Mathlib

/-!
Verification development for the weblayer SDK's agentic co-browsing (ACB) core.

The JavaScript sources are shallowly embedded as pure Lean functions:
DOM state, session state and the remote-protocol script are passed
explicitly; JS exceptions become explicit `thrown`/`Except.error`
outcomes; JS string truthiness (`undefined`/`''` are falsy) is made
explicit via `strTruthy`.  Each definition mirrors one function of the
source (file and function named in its doc comment).
-/

namespace Weblayer

/-- Truthiness of a JS string-or-undefined value: `undefined` and the
empty string are falsy, every other string is truthy. -/
def strTruthy : Option String → Bool
  | none => false
  | some s => s ≠ ""

/-- JS `v || dflt` for a string-valued property `v`. -/
def jsOr (v : Option String) (dflt : String) : String :=
  match v with
  | none => dflt
  | some s => if s = "" then dflt else s

/-- Strip leading and trailing whitespace from a character list. -/
def trimChars (cs : List Char) : List Char :=
  ((cs.dropWhile Char.isWhitespace).reverse.dropWhile Char.isWhitespace).reverse

/-- JS `String.prototype.trim`, character-list based. -/
def jsTrim (s : String) : String :=
  String.mk (trimChars s.data)

/-! ## Session state machine (`src/src/acb/state-manager.js`) -/

/-- Session status values used by the state manager. -/
inductive Status
  | active | paused | stopped | completed | error
  deriving DecidableEq, Repr

/-- Execution mode; `acb` validates the mode string to be `act` or
`guide` before any session is created, so the embedding uses a closed
type. -/
inductive Mode
  | act | guide
  deriving DecidableEq, Repr

/-- The session record created by `StateManager.createSession`.  The JS
`error` field stores the caught `Error`; here its message. -/
structure Session where
  threadId : Option String
  prompt : String
  mode : Mode
  status : Status
  actionsExecuted : Nat
  startTime : Nat
  pausedAt : Option Nat
  errMsg : Option String
  deriving DecidableEq, Repr

/-- `StateManager`: holds at most one current session. -/
structure StateManager where
  currentSession : Option Session
  deriving DecidableEq, Repr

/-- `StateManager.createSession` (state-manager.js:17-33): throws
"Session already active" when a session exists with status `active`,
otherwise replaces the current session by a fresh active one.  `now`
stands for `Date.now()`. -/
def createSession (sm : StateManager) (prompt : String) (mode : Mode) (now : Nat) :
    Except String (StateManager × Session) :=
  match sm.currentSession with
  | some s =>
      if s.status = Status.active then
        Except.error "Session already active"
      else
        let s' : Session :=
          ⟨none, prompt, mode, Status.active, 0, now, none, none⟩
        Except.ok (⟨some s'⟩, s')
  | none =>
      let s' : Session :=
        ⟨none, prompt, mode, Status.active, 0, now, none, none⟩
      Except.ok (⟨some s'⟩, s')

/-- `StateManager.isRunning`. -/
def smIsRunning (sm : StateManager) : Bool :=
  match sm.currentSession with
  | some s => s.status = Status.active
  | none => false

/-- `StateManager.pause` applied to a session: a no-op unless the
status is `active`. -/
def statePause (s : Session) (now : Nat) : Session :=
  if s.status = Status.active then
    { s with status := Status.paused, pausedAt := some now }
  else s

/-- `StateManager.resume` applied to a session: a no-op unless the
status is `paused`. -/
def stateResume (s : Session) : Session :=
  if s.status = Status.paused then
    { s with status := Status.active, pausedAt := none }
  else s

/-- `StateManager.stop`: unconditional write. -/
def stateStop (s : Session) : Session :=
  { s with status := Status.stopped }

/-- `StateManager.complete`: unconditional write. -/
def stateComplete (s : Session) : Session :=
  { s with status := Status.completed }

/-- `StateManager.error`: unconditional write, records the error. -/
def stateError (s : Session) (msg : String) : Session :=
  { s with status := Status.error, errMsg := some msg }

/-! ## `ACBController.getStatus` (`src/src/acb/index.js:257-271`) -/

/-- The value returned by `getStatus`: either `{running:false}` or the
full record with `running:true`. -/
inductive StatusReport
  | notRunning
  | running (threadId : Option String) (status : Status) (prompt : String)
      (actionsExecuted : Nat) (duration : Nat)
  deriving DecidableEq, Repr

/-- `ACBController.getStatus`; `now` stands for `Date.now()`. -/
def getStatus (sm : StateManager) (now : Nat) : StatusReport :=
  match sm.currentSession with
  | none => StatusReport.notRunning
  | some s =>
      StatusReport.running s.threadId s.status s.prompt s.actionsExecuted
        (now - s.startTime)

/-- The `running` flag of a status report. -/
def StatusReport.isRunning : StatusReport → Bool
  | StatusReport.notRunning => false
  | StatusReport.running .. => true

/-! ## `ACBController.acbPause` (`src/src/acb/index.js:161-204`) -/

/-- Result of `acbPause`.  `notified` records whether the backend
`pause` round trip was issued (visual feedback and debug logging are
outside the model). -/
structure PauseResult where
  success : Bool
  message : String
  notified : Bool
  threadId : Option (Option String)
  actionsExecuted : Option Nat
  deriving DecidableEq, Repr

/-- `ACBController.acbPause`: early-outs when no session exists or the
session is already paused; otherwise applies the state manager's
`pause` transition, notifies the backend and reports "Paused". -/
def acbPause (sm : StateManager) (now : Nat) : StateManager × PauseResult :=
  match sm.currentSession with
  | none =>
      (sm, ⟨false, "No ACB session running", false, none, none⟩)
  | some s =>
      if s.status = Status.paused then
        (sm, ⟨true, "Already paused", false, none, none⟩)
      else
        let s' := statePause s now
        (⟨some s'⟩,
          ⟨true, "Paused", true, some s'.threadId, some s'.actionsExecuted⟩)

/-! ## Action executor (`src/src/acb/action-executor.js`, second revision,
lines 177-554 of the concatenated source)

The DOM is abstracted to an association list from stable ids to element
records; `ElementDiscovery.findElementById` is abstracted to lookup in
that list (its internal two-phase resolution is modelled separately for
the element registry).  Dispatched DOM events are logged as a list. -/

/-- Kinds of synthetic events the executor dispatches on elements.
`vpClick` abstracts the virtualpointer's mouse/touch sequence issued by
`clickElement`. -/
inductive Ev
  | input | change | keydown | keyup | keypress | vpClick | submitEv
  deriving DecidableEq, Repr

/-- Number of occurrences of an event kind in a dispatch log. -/
def countEv (e : Ev) (l : List Ev) : Nat :=
  (l.filter (fun x => x = e)).length

/-- A live DOM element as far as the executor observes it.  `value` is
kept as a character list for clean reasoning about per-character
typing; `hasFormAncestor` models `element.closest('form') !== null`. -/
structure Elem where
  tagName : String
  textContent : String
  value : List Char
  hasFormAncestor : Bool
  deriving DecidableEq, Repr

/-- The executor's view of the page: stable id to element. -/
abbrev ExecState := List (String × Elem)

/-- First-match association lookup over the page view. -/
def lookupElem : ExecState → String → Option Elem
  | [], _ => none
  | (k, v) :: rest, t => if k = t then some v else lookupElem rest t

/-- Lookup modelling `findElementById` for the executor: a JS
`undefined` targetId never resolves. -/
def findElem (st : ExecState) (tid : Option String) : Option Elem :=
  match tid with
  | none => none
  | some t => lookupElem st t

/-- Replace the element stored under `t` (used by the `type` action,
the only action that mutates the observed element state). -/
def updateElem (st : ExecState) (t : String) (e : Elem) : ExecState :=
  match st with
  | [] => []
  | (k, v) :: rest =>
      if k = t then (k, e) :: rest else (k, v) :: updateElem rest t e

/-- The `Element not found: ...` message; a JS `undefined` targetId
stringifies to "undefined". -/
def errNotFound (tid : Option String) : String :=
  "Element not found: " ++ (tid.getD "undefined")

/-- An action as received from the remote service
(action-executor.js:191-197 and index.js:299). -/
structure Action where
  type : Option String
  targetId : Option String
  value : Option String
  key : Option String
  error : Option String
  deriving DecidableEq, Repr

/-- Element summary echoed in a successful result; fields are present
only when the respective branch sets them. -/
structure ElemSummary where
  id : Option String
  tag : String
  text : Option String
  value : Option String
  key : Option String
  deriving DecidableEq, Repr

/-- A normalized execution result `{success, error?, action, element?}`. -/
structure ExecResult where
  success : Bool
  error : Option String
  action : Option Action
  element : Option ElemSummary
  deriving DecidableEq, Repr

/-- Outcome of `execute`: either an exception escapes the call
(`thrown`) or a normalized result is returned together with the updated
DOM view and the dispatch log. -/
inductive ExecOutcome
  | thrown (msg : String)
  | normal (r : ExecResult) (st : ExecState) (evts : List Ev)
  deriving DecidableEq, Repr

/-- `ActionExecutor._setReactValue` (action-executor.js:341-365): sets
the element's value through the native setter (for `INPUT`/`TEXTAREA`)
or plain assignment, then dispatches one `input` event.  At this level
of abstraction every branch sets the value and dispatches `input`. -/
def setReactValue (e : Elem) (v : List Char) : Elem × List Ev :=
  ({ e with value := v }, [Ev.input])

/-- The per-character loop of `_executeType`
(action-executor.js:288-317): per character, dispatch `keydown`, set
`value + char` via `_setReactValue` (which dispatches `input`), then
dispatch `keyup`. -/
def typeChars (e : Elem) : List Char → Elem × List Ev
  | [] => (e, [])
  | c :: cs =>
      let (e1, evSet) := setReactValue e (e.value ++ [c])
      let (e2, evRest) := typeChars e1 cs
      (e2, [Ev.keydown] ++ evSet ++ [Ev.keyup] ++ evRest)

/-- `ActionExecutor._executeClick` (action-executor.js:232-260):
resolve, scroll into view, virtualpointer click, quiescence wait,
success summary.  Throws (as `Except.error`) when the target does not
resolve; no event is dispatched on that path. -/
def executeClick (st : ExecState) (a : Action) :
    Except String (ExecResult × ExecState × List Ev) :=
  match findElem st a.targetId with
  | none => Except.error (errNotFound a.targetId)
  | some e =>
      Except.ok
        (⟨true, none, some a,
            some ⟨a.targetId, e.tagName.toLower,
              some (String.mk ((trimChars e.textContent.data).take 50)),
              none, none⟩⟩,
          st, [Ev.vpClick])

/-- `ActionExecutor._executeType` (action-executor.js:266-335):
resolve, require a truthy value, clear via `_setReactValue(element,'')`
(one `input` event), type character by character, dispatch one final
`change` event. -/
def executeType (st : ExecState) (a : Action) :
    Except String (ExecResult × ExecState × List Ev) :=
  match findElem st a.targetId with
  | none => Except.error (errNotFound a.targetId)
  | some e =>
      if strTruthy a.value = false then
        Except.error "Type action requires value"
      else
        let v := (a.value.getD "").data
        let (e0, evClear) := setReactValue e []
        let (e1, evLoop) := typeChars e0 v
        let evts := evClear ++ evLoop ++ [Ev.change]
        Except.ok
          (⟨true, none, some a,
              some ⟨a.targetId, e1.tagName.toLower, none,
                some (String.mk e1.value), none⟩⟩,
            updateElem st (a.targetId.getD "") e1, evts)

/-- `ActionExecutor._executeScroll` (action-executor.js:409-435): with
a truthy, resolvable target, scroll it into view; otherwise scroll the
window.  Both paths succeed; no element event is dispatched. -/
def executeScroll (st : ExecState) (a : Action) :
    Except String (ExecResult × ExecState × List Ev) :=
  if strTruthy a.targetId = true then
    match findElem st a.targetId with
    | some e =>
        Except.ok
          (⟨true, none, some a,
              some ⟨a.targetId, e.tagName.toLower, none, none, none⟩⟩,
            st, [])
    | none => Except.ok (⟨true, none, some a, none⟩, st, [])
  else
    Except.ok (⟨true, none, some a, none⟩, st, [])

/-- `ActionExecutor._executeKeyPress` (action-executor.js:441-507):
resolve, focus, dispatch `keydown`/`keypress`/`keyup` with the key
`action.key || action.value || 'Enter'`. -/
def executeKeyPress (st : ExecState) (a : Action) :
    Except String (ExecResult × ExecState × List Ev) :=
  match findElem st a.targetId with
  | none => Except.error (errNotFound a.targetId)
  | some e =>
      let k := jsOr a.key (jsOr a.value "Enter")
      Except.ok
        (⟨true, none, some a,
            some ⟨a.targetId, e.tagName.toLower, none, none, some k⟩⟩,
          st, [Ev.keydown, Ev.keypress, Ev.keyup])

/-- `ActionExecutor._executeSubmit` (action-executor.js:513-553):
resolve, take the element itself when it is a form, else its nearest
form ancestor, else throw; dispatch a `submit` event and best-effort
call the native submit (whose failure is swallowed). -/
def executeSubmit (st : ExecState) (a : Action) :
    Except String (ExecResult × ExecState × List Ev) :=
  match findElem st a.targetId with
  | none => Except.error (errNotFound a.targetId)
  | some e =>
      if e.tagName = "FORM" then
        Except.ok
          (⟨true, none, some a,
              some ⟨a.targetId, e.tagName.toLower, none, none, none⟩⟩,
            st, [Ev.submitEv])
      else if e.hasFormAncestor then
        Except.ok
          (⟨true, none, some a, some ⟨a.targetId, "form", none, none, none⟩⟩,
            st, [Ev.submitEv])
      else
        Except.error "No form found for element"

/-- The `switch (action.type)` dispatch inside the `try` block of
`execute` (action-executor.js:203-218). -/
def dispatchAction (st : ExecState) (a : Action) :
    Except String (ExecResult × ExecState × List Ev) :=
  match a.type.getD "" with
  | "click" => executeClick st a
  | "type" => executeType st a
  | "scroll" => executeScroll st a
  | "key" => executeKeyPress st a
  | "keypress" => executeKeyPress st a
  | "submit" => executeSubmit st a
  | other => Except.error ("Unknown action type: " ++ other)

/-- `ActionExecutor.execute` (action-executor.js:198-226).  The
null/missing-type validation throws BEFORE the `try` block, so that
exception escapes; every throw inside the dispatch is caught and
normalized into `{success:false, error, action}`.  Throws inside the
dispatch happen before any event is dispatched or element mutated, so
the caught path returns the unchanged state and an empty log. -/
def execute (st : ExecState) (action : Option Action) : ExecOutcome :=
  match action with
  | none => ExecOutcome.thrown "Invalid action: type is required"
  | some a =>
      if strTruthy a.type = false then
        ExecOutcome.thrown "Invalid action: type is required"
      else
        match dispatchAction st a with
        | Except.ok (r, st', evts) => ExecOutcome.normal r st' evts
        | Except.error msg =>
            ExecOutcome.normal ⟨false, some msg, some a, none⟩ st []

/-- The dispatch log of an outcome (empty when the call threw). -/
def ExecOutcome.events : ExecOutcome → List Ev
  | ExecOutcome.thrown _ => []
  | ExecOutcome.normal _ _ evts => evts

/-! ## Element registry (`src/src/acb/element-discovery.js`)

The DOM is abstracted to the ordered list of visible interactive
elements as the `Set` built in `scan` iterates them (insertion order =
document order per selector pass).  A node carries its identity
(`nodeId`) and the persisted `dataset.weblayerId` tag. -/

/-- A live node as the registry observes it. -/
structure DNode where
  nodeId : Nat
  tag : Option String
  deriving DecidableEq, Repr

/-- The `wl-<counter>` id format. -/
def mkStableId (n : Nat) : String := "wl-" ++ toString n

/-- One step of `_extractElementData` (element-discovery.js:128-137):
increment the counter, tag the node if untagged (the tag is never
overwritten), and report `element.dataset.weblayerId || stableId` as
the record's id. -/
def scanNode (counter : Nat) (nd : DNode) : Nat × DNode × String :=
  let c := counter + 1
  let stableId := mkStableId c
  let nd' := if nd.tag = none then { nd with tag := some stableId } else nd
  (c, nd', jsOr nd'.tag stableId)

/-- Process the scanned nodes in order, threading the counter. -/
def scanList (counter : Nat) : List DNode → List DNode × List (Nat × String)
  | [] => ([], [])
  | nd :: rest =>
      let (c, nd', rid) := scanNode counter nd
      let (rest', recs) := scanList c rest
      (nd' :: rest', (nd.nodeId, rid) :: recs)

/-- `ElementDiscovery.scan` (element-discovery.js:15-76): the counter
is reset to 0 at the start of EVERY scan (`this.elementCounter = 0`,
line 16), then each visible interactive element is processed. -/
def scanDom (dom : List DNode) : List DNode × List (Nat × String) :=
  scanList 0 dom

/-! ## Remote protocol client (`src/unnamed/part_000`, `LLMClient`) -/

/-- The body of a non-2xx HTTP response as `_request` inspects it:
either `response.json()` rejects, or it yields an object whose `error`
property is modelled (absent = `none`). -/
inductive RespBody
  | malformed
  | jsonObj (errorField : Option String)
  deriving DecidableEq, Repr

/-- An HTTP response as `_request` observes it. -/
structure HttpResponse where
  ok : Bool
  status : Nat
  statusText : String
  body : RespBody
  deriving DecidableEq, Repr

/-- The `errorData` object built at llm-client line 42:
`await response.json().catch(() => ({ error: response.statusText }))`;
the value of its `error` property. -/
def errorDataField (r : HttpResponse) : Option String :=
  match r.body with
  | RespBody.malformed => some r.statusText
  | RespBody.jsonObj ef => ef

/-- The message of the `Error` thrown by `LLMClient._request` for a
non-2xx response (llm-client lines 41-44):
`errorData.error || 'HTTP ' + response.status`.  `none` when the
response was ok (no failure surfaced on that path). -/
def requestFailureMessage (r : HttpResponse) : Option String :=
  if r.ok then none
  else some (jsOr (errorDataField r) ("HTTP " ++ toString r.status))

/-! ## ACB orchestrator (`src/src/acb/index.js`)

The remote service is a script: the `start`/`resume` reply is given
explicitly and each `continue` round trip consumes one element of a
response list (network failures are outside the scripted runs).  An
external `acbPause` call lands during the awaits of some iteration; its
only loop-visible effect is the state manager's `pause` transition, so
it is injected as `statePause` at the top of the designated iteration. -/

/-- A `continue`/`resume` reply `{action, complete}`;
`complete || false` makes `complete` a plain Bool. -/
structure ContinueResponse where
  action : Option Action
  complete : Bool
  deriving DecidableEq, Repr

/-- A `start` reply `{threadId, action, complete}`. -/
structure StartResponse where
  threadId : String
  action : Option Action
  complete : Bool
  deriving DecidableEq, Repr

/-- How `_executionLoop` ended.  `scriptEnded` is a model artifact: the
loop needed one more `continue` reply than the script provides (the
real loop would be awaiting the network there). -/
inductive LoopExit
  | normalExit
  | stoppedExit
  | pausedExit
  | thrownExit (msg : String)
  | scriptEnded
  deriving DecidableEq, Repr

/-- Result of a loop run: final session, final DOM view, the results
of the execution attempts made (in order), and how the loop ended. -/
structure LoopResult where
  sess : Session
  st : ExecState
  executed : List ExecResult
  exit : LoopExit
  deriving DecidableEq, Repr

/-- What one iteration decided before the next `continue` round trip. -/
inductive StepOut
  | exit (res : LoopResult)
  | next (sess : Session) (st : ExecState) (r : Option ExecResult)
  deriving DecidableEq, Repr

/-- The body of one `while` iteration of `_executionLoop`
(index.js:281-350), up to (but not including) the `continue` round
trip: inject the external pause if scheduled for this iteration, test
the `while (action && !complete)` condition, the `stopped`/`paused`
checks, the `action.error` check, then the mode branch.  In `act`
mode the action is executed and `actionsExecuted` incremented
(index.js:307-308) regardless of the result's own success; in `guide`
mode nothing is executed. -/
def loopIter (pauseAt : Option Nat) (iter : Nat) (sess0 : Session)
    (st : ExecState) (action : Option Action) (complete : Bool) : StepOut :=
  let sess := if pauseAt = some iter then statePause sess0 0 else sess0
  match action, complete with
  | none, _ => StepOut.exit ⟨sess, st, [], LoopExit.normalExit⟩
  | some _, true => StepOut.exit ⟨sess, st, [], LoopExit.normalExit⟩
  | some a, false =>
      if sess.status = Status.stopped then
        StepOut.exit ⟨sess, st, [], LoopExit.stoppedExit⟩
      else if sess.status = Status.paused then
        StepOut.exit ⟨sess, st, [], LoopExit.pausedExit⟩
      else if strTruthy a.error then
        StepOut.exit ⟨sess, st, [],
          LoopExit.thrownExit ("Action error: " ++ a.error.getD "")⟩
      else
        match sess.mode with
        | Mode.act =>
            match execute st (some a) with
            | ExecOutcome.thrown m =>
                StepOut.exit ⟨sess, st, [], LoopExit.thrownExit m⟩
            | ExecOutcome.normal r st' _ =>
                StepOut.next
                  { sess with actionsExecuted := sess.actionsExecuted + 1 }
                  st' (some r)
        | Mode.guide => StepOut.next sess st none

/-- `ACBController._executionLoop` (index.js:277-355), driven by the
`continue` script.  Each non-exiting iteration consumes one scripted
reply and adopts its `action`/`complete`. -/
def execLoop (pauseAt : Option Nat) :
    List ContinueResponse → Session → ExecState → Option Action → Bool →
      Nat → LoopResult
  | [], sess, st, action, complete, iter =>
      match loopIter pauseAt iter sess st action complete with
      | StepOut.exit res => res
      | StepOut.next sess' st' r =>
          ⟨sess', st', r.toList, LoopExit.scriptEnded⟩
  | resp :: rest, sess, st, action, complete, iter =>
      match loopIter pauseAt iter sess st action complete with
      | StepOut.exit res => res
      | StepOut.next sess' st' r =>
          let lr := execLoop pauseAt rest sess' st' resp.action resp.complete
            (iter + 1)
          ⟨lr.sess, lr.st, r.toList ++ lr.executed, lr.exit⟩

/-- The object returned by a completed `acb` call. -/
structure AcbReturn where
  success : Bool
  status : String
  actionsExecuted : Nat
  errMsg : Option String
  deriving DecidableEq, Repr

/-- Outcome of `ACBController.acb`: the validation errors at
index.js:45-55 are thrown (escape the call); otherwise a result object
is returned and the state manager updated.  `incomplete` marks a run
whose script ended mid-loop (model artifact, see `LoopExit.scriptEnded`). -/
inductive AcbOutcome
  | thrown (msg : String)
  | returned (r : AcbReturn) (sm : StateManager)
  | incomplete (sm : StateManager)
  deriving DecidableEq, Repr

/-- `ACBController.acb` (index.js:43-114): validate, create the
session, store the `threadId` from `start`, run the loop, then —
unconditionally, whatever made the loop exit — mark the session
`completed` on the non-throwing path, or `error` when the loop threw. -/
def acbRun (sm : StateManager) (prompt : String) (mode : Mode)
    (startResp : StartResponse) (script : List ContinueResponse)
    (st : ExecState) (pauseAt : Option Nat) (now : Nat) : AcbOutcome :=
  if smIsRunning sm then
    AcbOutcome.thrown "ACB already running. Stop or pause current session first."
  else if jsTrim prompt = "" then
    AcbOutcome.thrown "Prompt is required"
  else
    match createSession sm prompt mode now with
    | Except.error m => AcbOutcome.thrown m
    | Except.ok (_, s0) =>
        let s1 := { s0 with threadId := some startResp.threadId }
        let lr := execLoop pauseAt script s1 st startResp.action
          startResp.complete 0
        match lr.exit with
        | LoopExit.thrownExit m =>
            let s2 := stateError lr.sess m
            AcbOutcome.returned
              ⟨false, "error", s2.actionsExecuted, some m⟩ ⟨some s2⟩
        | LoopExit.scriptEnded => AcbOutcome.incomplete ⟨some lr.sess⟩
        | _ =>
            let s2 := stateComplete lr.sess
            AcbOutcome.returned
              ⟨true, "completed", s2.actionsExecuted, none⟩ ⟨some s2⟩

/-- The object returned by `acbResume` when it returns without entering
the loop, or after the resumed loop finished. -/
structure ResumeReturn where
  success : Bool
  message : String
  deriving DecidableEq, Repr

/-- Outcome of `ACBController.acbResume` (index.js:210-251): early-outs
when no session exists or the session is not `paused`; otherwise apply
the `resume` transition, call the remote `resume` (scripted reply
`resumeResp`) and re-enter `_executionLoop` with its returned action.
`reentered` records whether the turn loop was re-entered.  acbResume
has no try/catch, so a loop throw escapes the call. -/
inductive ResumeOutcome
  | thrown (msg : String)
  | returned (r : ResumeReturn) (reentered : Bool) (sm : StateManager)
  | incomplete (sm : StateManager)
  deriving DecidableEq, Repr

/-- `ACBController.acbResume`, with the remote `resume` reply and the
subsequent `continue` script given explicitly. -/
def acbResume (sm : StateManager) (resumeResp : ContinueResponse)
    (script : List ContinueResponse) (st : ExecState) : ResumeOutcome :=
  match sm.currentSession with
  | none => ResumeOutcome.returned ⟨false, "No paused ACB session"⟩ false sm
  | some s =>
      if s.status ≠ Status.paused then
        ResumeOutcome.returned ⟨false, "ACB not paused"⟩ false sm
      else
        let s1 := stateResume s
        let lr := execLoop none script s1 st resumeResp.action
          resumeResp.complete 0
        match lr.exit with
        | LoopExit.thrownExit m => ResumeOutcome.thrown m
        | LoopExit.scriptEnded => ResumeOutcome.incomplete ⟨some lr.sess⟩
        | _ => ResumeOutcome.returned ⟨true, "Resumed"⟩ true ⟨some lr.sess⟩

/-- Bookkeeping invariant of one loop iteration relative to the session
it started from: an exiting iteration leaves the counter and mode
untouched and executed nothing; a proceeding iteration advanced the
counter by exactly the number of execution attempts it made (one in
`act` mode, zero in `guide` mode), kept the mode, and made no attempt
in `guide` mode. -/
def StepOut.accounted (sess : Session) : StepOut → Prop
  | StepOut.exit res =>
      res.sess.actionsExecuted = sess.actionsExecuted ∧
      res.sess.mode = sess.mode ∧ res.executed = []
  | StepOut.next sess' _ r =>
      sess'.actionsExecuted = sess.actionsExecuted + r.toList.length ∧
      sess'.mode = sess.mode ∧ (sess.mode = Mode.guide → r = none)

/-! ## Concrete fixtures used by witnesses and counterexamples -/

/-- A button element visible on the sample page. -/
def fixButton : Elem := ⟨"BUTTON", "Go", [], false⟩

/-- A text input element on the sample page. -/
def fixInput : Elem := ⟨"INPUT", "", "old".data, false⟩

/-- A sample page holding the two fixture elements. -/
def fixDom : ExecState := [("wl-1", fixButton), ("wl-2", fixInput)]

/-- A click action on the button. -/
def fixClick : Action := ⟨some "click", some "wl-1", none, none, none⟩

/-- A click action on an id no live node carries. -/
def fixClickMiss : Action := ⟨some "click", some "wl-9999", none, none, none⟩

/-- A type action putting "a" into the input. -/
def fixType : Action := ⟨some "type", some "wl-2", some "a", none, none⟩

/-- A paused session fixture. -/
def fixPausedSession : Session :=
  ⟨some "t1", "buy it", Mode.act, Status.paused, 2, 10, some 20, none⟩

/-- A completed session fixture. -/
def fixCompletedSession : Session :=
  ⟨some "t1", "buy it", Mode.act, Status.completed, 3, 10, none, none⟩

/-- A stopped session fixture. -/
def fixStoppedSession : Session :=
  ⟨some "t1", "buy it", Mode.act, Status.stopped, 3, 10, none, none⟩

/-- A guide-mode active session fixture. -/
def fixGuideSession : Session :=
  ⟨some "t1", "show me", Mode.guide, Status.active, 0, 0, none, none⟩

/-- An act-mode active session fixture. -/
def fixActSession : Session :=
  ⟨some "t1", "buy it", Mode.act, Status.active, 0, 0, none, none⟩

/-- The session as `acb` leaves it in the pause-then-resume scenario of
the C1 analysis: paused mid-loop after one executed action, then
overwritten to `completed` by `acb`'s epilogue. -/
def fixClobberedSession : Session :=
  ⟨some "t1", "go", Mode.act, Status.completed, 1, 0, some 0, none⟩

/-! ## Theorems -/

/-- C4: `createSession` fails with the "session already active" error
exactly when an existing session has status `active`; when no session
exists or the existing one is `paused`, `stopped`, `completed` or
`error`, it succeeds and installs a fresh active session with a zeroed
counter. -/
theorem createSession_active_iff (sm : StateManager) (p : String) (m : Mode)
    (t : Nat) :
    ((∃ s, sm.currentSession = some s ∧ s.status = Status.active) ↔
      createSession sm p m t = Except.error "Session already active") ∧
    ((∀ s, sm.currentSession = some s → s.status ≠ Status.active) →
      createSession sm p m t =
        Except.ok (⟨some ⟨none, p, m, Status.active, 0, t, none, none⟩⟩,
          ⟨none, p, m, Status.active, 0, t, none, none⟩)) := by
  cases hs : sm.currentSession with
  | none => simp [createSession, hs]
  | some s =>
      by_cases ha : s.status = Status.active
      · constructor
        · simp [createSession, hs, ha]
        · intro h
          exact absurd ha (h s rfl)
      · simp [createSession, hs, ha]

/-- Witness for C4 at a concrete input: a `paused` prior session does
not block creation. -/
theorem createSession_active_iff_witness :
    createSession ⟨some fixPausedSession⟩ "p" Mode.act 7 =
      Except.ok (⟨some ⟨none, "p", Mode.act, Status.active, 0, 7, none, none⟩⟩,
        ⟨none, "p", Mode.act, Status.active, 0, 7, none, none⟩) := by
  refine (createSession_active_iff ⟨some fixPausedSession⟩ "p" Mode.act 7).2 ?_
  intro s hs
  cases hs
  decide

/-- C9: `getStatus` reports `running:true` exactly when a session
record exists, whatever its status (in particular after `stopped`,
`completed` or `error`, before `clearSession`); it reports the bare
`{running:false}` only when no session exists. -/
theorem getStatus_running_iff (sm : StateManager) (now : Nat) :
    ((getStatus sm now).isRunning = true ↔ ∃ s, sm.currentSession = some s) ∧
    (∀ s, sm.currentSession = some s →
      getStatus sm now = StatusReport.running s.threadId s.status s.prompt
        s.actionsExecuted (now - s.startTime)) ∧
    (sm.currentSession = none → getStatus sm now = StatusReport.notRunning) := by
  cases hs : sm.currentSession with
  | none => simp [getStatus, hs, StatusReport.isRunning]
  | some s => simp [getStatus, hs, StatusReport.isRunning]

/-- Witness for C9 at a concrete input: a `stopped` session still
reports `running:true`. -/
theorem getStatus_running_iff_witness :
    getStatus ⟨some fixStoppedSession⟩ 50 =
      StatusReport.running (some "t1") Status.stopped "buy it" 3 40 := by
  have h :=
    (getStatus_running_iff ⟨some fixStoppedSession⟩ 50).2.1 fixStoppedSession rfl
  simpa [fixStoppedSession] using h

/-- C10 counterexample: a session whose status is `paused` is "not
`active`", yet `acbPause` answers "Already paused" (not "Paused") and
does not notify the backend — refuting the claim as stated. -/
theorem acbPause_paused_cex :
    (acbPause ⟨some fixPausedSession⟩ 9).2 =
      ⟨true, "Already paused", false, none, none⟩ ∧
    "Already paused" ≠ "Paused" := by
  constructor
  · decide
  · decide

/-- C10 (amended): when a session exists whose status is neither
`active` nor `paused` (e.g. `completed`, `stopped`, `error`),
`acbPause` returns `{success:true, message:'Paused'}`, notifies the
backend, and leaves the session record — in particular its status —
unchanged, because the underlying `pause` transition is a no-op off
`active`. -/
theorem acbPause_inactive (sm : StateManager) (s : Session) (now : Nat)
    (hs : sm.currentSession = some s) (ha : s.status ≠ Status.active)
    (hp : s.status ≠ Status.paused) :
    acbPause sm now =
      (⟨some s⟩, ⟨true, "Paused", true, some s.threadId,
        some s.actionsExecuted⟩) := by
  have hnp : statePause s now = s := by
    simp [statePause, ha]
  simp [acbPause, hs, hp, hnp]

/-- Witness for C10 (amended) at a concrete input: a `completed`
session. -/
theorem acbPause_inactive_witness :
    acbPause ⟨some fixCompletedSession⟩ 9 =
      (⟨some fixCompletedSession⟩, ⟨true, "Paused", true, some (some "t1"),
        some 3⟩) := by
  have h := acbPause_inactive ⟨some fixCompletedSession⟩ fixCompletedSession 9
    rfl (by decide) (by decide)
  simpa [fixCompletedSession] using h

/-! ### Executor helper lemmas -/

theorem countEv_append (e : Ev) (l1 l2 : List Ev) :
    countEv e (l1 ++ l2) = countEv e l1 + countEv e l2 := by
  simp [countEv, List.filter_append]

theorem getLast?_append_singleton {α : Type} (l : List α) (a : α) :
    (l ++ [a]).getLast? = some a := by
  exact List.getLast?_concat l

theorem typeChars_fst (e : Elem) (cs : List Char) :
    (typeChars e cs).1 = { e with value := e.value ++ cs } := by
  induction cs generalizing e with
  | nil => simp [typeChars]
  | cons c cs ih =>
      simp [typeChars, setReactValue, ih, List.append_assoc]

theorem typeChars_count_input (e : Elem) (cs : List Char) :
    countEv Ev.input (typeChars e cs).2 = cs.length := by
  induction cs generalizing e with
  | nil => simp [typeChars, countEv]
  | cons c cs ih =>
      have h := ih { e with value := e.value ++ [c] }
      simp [typeChars, setReactValue, countEv_append, countEv] at h ⊢
      omega

theorem typeChars_count_change (e : Elem) (cs : List Char) :
    countEv Ev.change (typeChars e cs).2 = 0 := by
  induction cs generalizing e with
  | nil => simp [typeChars, countEv]
  | cons c cs ih =>
      have h := ih { e with value := e.value ++ [c] }
      simp [typeChars, setReactValue, countEv_append, countEv] at h ⊢
      exact h

theorem lookupElem_update (st : ExecState) (t : String) (e e' : Elem)
    (h : lookupElem st t = some e) :
    lookupElem (updateElem st t e') t = some e' := by
  induction st with
  | nil => simp [lookupElem] at h
  | cons kv rest ih =>
      obtain ⟨k, v⟩ := kv
      by_cases hk : k = t
      · simp [lookupElem, updateElem, hk]
      · simp [lookupElem, updateElem, hk] at h ⊢
        exact ih h

theorem executeClick_ok (st : ExecState) (a : Action) (r : ExecResult)
    (st' : ExecState) (evts : List Ev)
    (h : executeClick st a = Except.ok (r, st', evts)) :
    r.success = true ∧ r.action = some a := by
  unfold executeClick at h
  split at h
  all_goals first
    | (simp only [Except.ok.injEq, Prod.mk.injEq] at h
       obtain ⟨h1, -, -⟩ := h
       subst h1
       exact ⟨rfl, rfl⟩)
    | simp at h

theorem executeType_ok (st : ExecState) (a : Action) (r : ExecResult)
    (st' : ExecState) (evts : List Ev)
    (h : executeType st a = Except.ok (r, st', evts)) :
    r.success = true ∧ r.action = some a := by
  unfold executeType at h
  split at h
  · simp at h
  · split at h
    · simp at h
    · simp only [setReactValue, Except.ok.injEq, Prod.mk.injEq] at h
      obtain ⟨h1, -, -⟩ := h
      subst h1
      exact ⟨rfl, rfl⟩

theorem executeScroll_ok (st : ExecState) (a : Action) (r : ExecResult)
    (st' : ExecState) (evts : List Ev)
    (h : executeScroll st a = Except.ok (r, st', evts)) :
    r.success = true ∧ r.action = some a := by
  unfold executeScroll at h
  split at h
  · split at h
    all_goals
      simp only [Except.ok.injEq, Prod.mk.injEq] at h
      obtain ⟨h1, -, -⟩ := h
      subst h1
      exact ⟨rfl, rfl⟩
  · simp only [Except.ok.injEq, Prod.mk.injEq] at h
    obtain ⟨h1, -, -⟩ := h
    subst h1
    exact ⟨rfl, rfl⟩

theorem executeKeyPress_ok (st : ExecState) (a : Action) (r : ExecResult)
    (st' : ExecState) (evts : List Ev)
    (h : executeKeyPress st a = Except.ok (r, st', evts)) :
    r.success = true ∧ r.action = some a := by
  unfold executeKeyPress at h
  split at h
  all_goals first
    | (simp only [Except.ok.injEq, Prod.mk.injEq] at h
       obtain ⟨h1, -, -⟩ := h
       subst h1
       exact ⟨rfl, rfl⟩)
    | simp at h

theorem executeSubmit_ok (st : ExecState) (a : Action) (r : ExecResult)
    (st' : ExecState) (evts : List Ev)
    (h : executeSubmit st a = Except.ok (r, st', evts)) :
    r.success = true ∧ r.action = some a := by
  unfold executeSubmit at h
  split at h
  · simp at h
  · split at h
    · simp only [Except.ok.injEq, Prod.mk.injEq] at h
      obtain ⟨h1, -, -⟩ := h
      subst h1
      exact ⟨rfl, rfl⟩
    · split at h
      · simp only [Except.ok.injEq, Prod.mk.injEq] at h
        obtain ⟨h1, -, -⟩ := h
        subst h1
        exact ⟨rfl, rfl⟩
      · simp at h

theorem dispatchAction_ok (st : ExecState) (a : Action) (r : ExecResult)
    (st' : ExecState) (evts : List Ev)
    (h : dispatchAction st a = Except.ok (r, st', evts)) :
    r.success = true ∧ r.action = some a := by
  unfold dispatchAction at h
  split at h
  · exact executeClick_ok _ _ _ _ _ h
  · exact executeType_ok _ _ _ _ _ h
  · exact executeScroll_ok _ _ _ _ _ h
  · exact executeKeyPress_ok _ _ _ _ _ h
  · exact executeKeyPress_ok _ _ _ _ _ h
  · exact executeSubmit_ok _ _ _ _ _ h
  · simp_all

/-- C2 counterexample: calling `execute` with a null action lets the
"Invalid action: type is required" exception escape the call (the
validation check sits before the `try` block), refuting the claim that
every failure path returns a normalized `{success:false, error, action}`
object. -/
theorem execute_null_throws_cex :
    execute [] none = ExecOutcome.thrown "Invalid action: type is required" :=
  rfl

/-- C2 (amended): `execute` throws exactly when the action is null or
its `type` is missing/empty (that validation precedes the `try` block
and its exception escapes); for every action with a truthy `type` no
exception escapes — unknown types included, the call returns a
normalized result that is either a success or a
`{success:false, error, action}` failure echoing the action. -/
theorem execute_throw_iff (st : ExecState) (act : Option Action) :
    ((∃ m, execute st act = ExecOutcome.thrown m) ↔
      (act = none ∨ ∃ a, act = some a ∧ strTruthy a.type = false)) ∧
    (∀ a, act = some a → strTruthy a.type = true →
      ∃ r st' evts, execute st act = ExecOutcome.normal r st' evts ∧
        (r.success = true ∨
          (r.success = false ∧ (∃ e, r.error = some e) ∧
            r.action = some a))) := by
  cases act with
  | none =>
      constructor
      · simp [execute]
      · intro a ha
        cases ha
  | some a =>
      by_cases ht : strTruthy a.type = true
      · cases hd : dispatchAction st a with
        | ok v =>
            obtain ⟨r, st', evts⟩ := v
            have hok := dispatchAction_ok st a r st' evts hd
            have he : execute st (some a) = ExecOutcome.normal r st' evts := by
              simp [execute, ht, hd]
            constructor
            · simp [he, ht]
            · intro a' ha' _
              cases ha'
              exact ⟨r, st', evts, he, Or.inl hok.1⟩
        | error m =>
            have he : execute st (some a) =
                ExecOutcome.normal ⟨false, some m, some a, none⟩ st [] := by
              simp [execute, ht, hd]
            constructor
            · simp [he, ht]
            · intro a' ha' _
              cases ha'
              exact ⟨⟨false, some m, some a, none⟩, st, [], he,
                Or.inr ⟨rfl, ⟨m, rfl⟩, rfl⟩⟩
      · have hf : strTruthy a.type = false := by
          simpa using ht
        have he : execute st (some a) =
            ExecOutcome.thrown "Invalid action: type is required" := by
          simp [execute, hf]
        constructor
        · simp [he, hf]
        · intro a' ha' htr
          cases ha'
          rw [hf] at htr
          cases htr

/-- Witness for C2 (amended) at a concrete input: an unknown action
type produces a normalized failure, not a thrown exception. -/
theorem execute_throw_iff_witness :
    ∃ r st' evts,
      execute fixDom (some ⟨some "hover", some "wl-1", none, none, none⟩) =
        ExecOutcome.normal r st' evts ∧
      (r.success = true ∨
        (r.success = false ∧ (∃ e, r.error = some e) ∧
          r.action = some ⟨some "hover", some "wl-1", none, none, none⟩)) := by
  exact (execute_throw_iff fixDom
      (some ⟨some "hover", some "wl-1", none, none, none⟩)).2
    ⟨some "hover", some "wl-1", none, none, none⟩ rfl (by decide)

/-- C7: for every click action, a resolvable target yields a
`success:true` result, and an unresolvable `targetId` yields the
normalized `{success:false, error: "Element not found: <id>"}` failure
with the unresolved id in the error string. -/
theorem click_result_spec (st : ExecState) (a : Action)
    (hc : a.type = some "click") :
    (∀ e, findElem st a.targetId = some e →
      ∃ r st' evts, execute st (some a) = ExecOutcome.normal r st' evts ∧
        r.success = true) ∧
    (∀ tid, a.targetId = some tid → findElem st a.targetId = none →
      execute st (some a) =
        ExecOutcome.normal
          ⟨false, some ("Element not found: " ++ tid), some a, none⟩ st []) := by
  have ht : strTruthy (some "click") = true := by decide
  constructor
  · intro e he
    refine ⟨⟨true, none, some a,
        some ⟨a.targetId, e.tagName.toLower,
          some (String.mk ((trimChars e.textContent.data).take 50)),
          none, none⟩⟩, st, [Ev.vpClick],
      ?_, rfl⟩
    simp [execute, ht, dispatchAction, hc, executeClick, he]
  · intro tid htid hnone
    have hnone' : findElem st (some tid) = none := by
      rw [← htid]
      exact hnone
    simp [execute, ht, dispatchAction, hc, executeClick, hnone', errNotFound,
      htid]

/-- Witness for C7 at concrete inputs: clicking `wl-9999` with no
matching node yields exactly `{success:false, error: "Element not
found: wl-9999"}`, while clicking the live button succeeds. -/
theorem click_result_spec_witness :
    execute fixDom (some fixClickMiss) =
      ExecOutcome.normal
        ⟨false, some "Element not found: wl-9999", some fixClickMiss, none⟩
        fixDom [] ∧
    (∃ r st' evts, execute fixDom (some fixClick) =
      ExecOutcome.normal r st' evts ∧ r.success = true) := by
  constructor
  · have h := (click_result_spec fixDom fixClickMiss rfl).2 "wl-9999" rfl
      (by decide)
    simpa using h
  · exact (click_result_spec fixDom fixClick rfl).1 fixButton (by decide)

/-- C3 counterexample: typing the one-character value "a" dispatches
TWO `input` events, not one — the initial clear
`_setReactValue(element, '')` already dispatches an `input` event
before the character loop — refuting "exactly n input events". -/
theorem type_input_count_cex :
    countEv Ev.input (execute fixDom (some fixType)).events = 2 ∧
    ("a" : String).length = 1 := by
  constructor
  · decide
  · decide

/-- C3 (amended): a `type` action on a resolvable text field with a
non-empty supplied value of length n leaves the field's value equal to
the supplied value and dispatches exactly n + 1 `input` events (one
from the initial clear plus one per character) and exactly one `change`
event, dispatched after the character loop (it is the final event). -/
theorem type_result_spec (st : ExecState) (a : Action) (e : Elem) (v : String)
    (hty : a.type = some "type") (he : findElem st a.targetId = some e)
    (hv : a.value = some v) (hne : v ≠ "") :
    ∃ r st' evts, execute st (some a) = ExecOutcome.normal r st' evts ∧
      r.success = true ∧
      findElem st' a.targetId = some { e with value := v.data } ∧
      countEv Ev.input evts = v.length + 1 ∧
      countEv Ev.change evts = 1 ∧
      evts.getLast? = some Ev.change := by
  obtain ⟨t, htid⟩ : ∃ t, a.targetId = some t := by
    cases h : a.targetId with
    | none => rw [h] at he; simp [findElem] at he
    | some t => exact ⟨t, rfl⟩
  have ht : strTruthy (some "type") = true := by decide
  have hvt : strTruthy (some v) = true := by
    simp [strTruthy, hne]
  have hlook : lookupElem st t = some e := by
    rw [htid] at he
    exact he
  have he' : findElem st (some t) = some e := by
    rw [← htid]
    exact he
  have hfst : (typeChars { e with value := ([] : List Char) } v.data).1 =
      { e with value := v.data } := by
    have := typeChars_fst ({ e with value := ([] : List Char) }) v.data
    simpa using this
  have hrun : execute st (some a) =
      ExecOutcome.normal
        ⟨true, none, some a,
          some ⟨a.targetId,
            (typeChars { e with value := ([] : List Char) } v.data).1.tagName.toLower,
            none,
            some (String.mk
              (typeChars { e with value := ([] : List Char) } v.data).1.value),
            none⟩⟩
        (updateElem st t
          (typeChars { e with value := ([] : List Char) } v.data).1)
        ([Ev.input] ++
          (typeChars { e with value := ([] : List Char) } v.data).2 ++
          [Ev.change]) := by
    simp [execute, ht, dispatchAction, hty, executeType, he', hvt, hv,
      setReactValue, htid]
  refine ⟨_, _, _, hrun, rfl, ?_, ?_, ?_, ?_⟩
  · rw [htid]
    show lookupElem (updateElem st t _) t = _
    rw [lookupElem_update st t e _ hlook, hfst]
  · rw [countEv_append, countEv_append, typeChars_count_input]
    simp [countEv]
    omega
  · rw [countEv_append, countEv_append, typeChars_count_change]
    simp [countEv]
  · rw [List.append_assoc, ← List.append_assoc]
    exact getLast?_append_singleton _ _

/-- Witness for C3 (amended) at a concrete input: typing "a" into the
fixture input field. -/
theorem type_result_spec_witness :
    ∃ r st' evts, execute fixDom (some fixType) =
      ExecOutcome.normal r st' evts ∧
      r.success = true ∧
      findElem st' fixType.targetId = some { fixInput with value := "a".data } ∧
      countEv Ev.input evts = 2 ∧
      countEv Ev.change evts = 1 ∧
      evts.getLast? = some Ev.change := by
  obtain ⟨r, st', evts, h1, h2, h3, h4, h5, h6⟩ :=
    type_result_spec fixDom fixType fixInput "a" rfl (by decide) rfl
      (by decide)
  refine ⟨r, st', evts, h1, h2, h3, ?_, h5, h6⟩
  rw [h4]
  decide

/-! ### Loop accounting lemmas (C5, C1) -/

theorem statePause_actionsExecuted (s : Session) (n : Nat) :
    (statePause s n).actionsExecuted = s.actionsExecuted := by
  unfold statePause
  split <;> rfl

theorem statePause_mode (s : Session) (n : Nat) :
    (statePause s n).mode = s.mode := by
  unfold statePause
  split <;> rfl

theorem loopIter_accounted (p : Option Nat) (iter : Nat) (sess : Session)
    (st : ExecState) (action : Option Action) (complete : Bool) :
    StepOut.accounted sess (loopIter p iter sess st action complete) := by
  have hIc : (if p = some iter then statePause sess 0 else sess).actionsExecuted
      = sess.actionsExecuted := by
    split
    · exact statePause_actionsExecuted sess 0
    · rfl
  have hIm : (if p = some iter then statePause sess 0 else sess).mode
      = sess.mode := by
    split
    · exact statePause_mode sess 0
    · rfl
  unfold loopIter
  cases action with
  | none => simp [StepOut.accounted, hIc, hIm]
  | some a =>
      cases complete with
      | true => simp [StepOut.accounted, hIc, hIm]
      | false =>
          by_cases h1 : (if p = some iter then statePause sess 0 else sess).status
              = Status.stopped
          · simp [StepOut.accounted, h1, hIc, hIm]
          · by_cases h2 : (if p = some iter then statePause sess 0 else sess).status
                = Status.paused
            · simp [StepOut.accounted, h1, h2, hIc, hIm]
            · by_cases h3 : strTruthy a.error = true
              · simp [StepOut.accounted, h1, h2, h3, hIc, hIm]
              · cases hmode : sess.mode with
                | act =>
                    have hm : (if p = some iter then statePause sess 0 else sess).mode
                        = Mode.act := by rw [hIm, hmode]
                    cases hex : execute st (some a) with
                    | thrown m =>
                        simp [StepOut.accounted, h1, h2, h3, hm, hex, hIc, hIm]
                        exact hmode.symm
                    | normal r st' evts =>
                        simp [StepOut.accounted, h1, h2, h3, hm, hex, hIc, hIm,
                          hmode]
                | guide =>
                    have hm : (if p = some iter then statePause sess 0 else sess).mode
                        = Mode.guide := by rw [hIm, hmode]
                    simp [StepOut.accounted, h1, h2, h3, hm, hIc, hIm]
                    exact hmode.symm

theorem execLoop_accounting (p : Option Nat) (script : List ContinueResponse) :
    ∀ (sess : Session) (st : ExecState) (action : Option Action)
      (complete : Bool) (iter : Nat),
      (execLoop p script sess st action complete iter).sess.actionsExecuted
        = sess.actionsExecuted +
          (execLoop p script sess st action complete iter).executed.length ∧
      (execLoop p script sess st action complete iter).sess.mode = sess.mode ∧
      (sess.mode = Mode.guide →
        (execLoop p script sess st action complete iter).executed = []) := by
  induction script with
  | nil =>
      intro sess st action complete iter
      have hacc := loopIter_accounted p iter sess st action complete
      cases hli : loopIter p iter sess st action complete with
      | exit res =>
          rw [hli] at hacc
          simp only [StepOut.accounted] at hacc
          simp only [execLoop, hli]
          exact ⟨by rw [hacc.1, hacc.2.2]; rfl, hacc.2.1, fun _ => hacc.2.2⟩
      | next sess' st' r =>
          rw [hli] at hacc
          simp only [StepOut.accounted] at hacc
          simp only [execLoop, hli]
          refine ⟨hacc.1, hacc.2.1, fun hg => ?_⟩
          rw [hacc.2.2 hg]
          rfl
  | cons resp rest ih =>
      intro sess st action complete iter
      have hacc := loopIter_accounted p iter sess st action complete
      cases hli : loopIter p iter sess st action complete with
      | exit res =>
          rw [hli] at hacc
          simp only [StepOut.accounted] at hacc
          simp only [execLoop, hli]
          exact ⟨by rw [hacc.1, hacc.2.2]; rfl, hacc.2.1, fun _ => hacc.2.2⟩
      | next sess' st' r =>
          rw [hli] at hacc
          simp only [StepOut.accounted] at hacc
          obtain ⟨hrec1, hrec2, hrec3⟩ :=
            ih sess' st' resp.action resp.complete (iter + 1)
          simp only [execLoop, hli]
          refine ⟨?_, by rw [hrec2, hacc.2.1], fun hg => ?_⟩
          · rw [hrec1, hacc.1, List.length_append]
            omega
          · have hg' : sess'.mode = Mode.guide := by rw [hacc.2.1, hg]
            rw [hacc.2.2 hg, hrec3 hg']
            rfl

/-- C5: over any run of the turn loop, the session's `actionsExecuted`
counter ends at its starting value plus exactly the number of execution
attempts the loop made — one per `act`-mode iteration, counted whether
or not the individual result succeeded — and in `guide` mode no attempt
is ever made, so the counter never moves; in particular the counter is
monotonically non-decreasing. -/
theorem actionsExecuted_spec (p : Option Nat) (script : List ContinueResponse)
    (sess : Session) (st : ExecState) (action : Option Action)
    (complete : Bool) (iter : Nat) :
    (execLoop p script sess st action complete iter).sess.actionsExecuted
      = sess.actionsExecuted +
        (execLoop p script sess st action complete iter).executed.length ∧
    (sess.mode = Mode.guide →
      (execLoop p script sess st action complete iter).executed = []) ∧
    sess.actionsExecuted ≤
      (execLoop p script sess st action complete iter).sess.actionsExecuted := by
  obtain ⟨h1, _, h3⟩ := execLoop_accounting p script sess st action complete iter
  exact ⟨h1, h3, by rw [h1]; exact Nat.le_add_right _ _⟩

/-- Witness for C5 at concrete inputs: an `act`-mode run whose single
action FAILS (unresolvable target) still advances the counter by one,
and a `guide`-mode run makes no execution attempt. -/
theorem actionsExecuted_spec_witness :
    (execLoop none [] fixActSession fixDom (some fixClickMiss) false 0).sess.actionsExecuted
      = fixActSession.actionsExecuted +
        (execLoop none [] fixActSession fixDom (some fixClickMiss) false 0).executed.length ∧
    (execLoop none [] fixActSession fixDom (some fixClickMiss) false 0).executed.length = 1 ∧
    (execLoop none [] fixGuideSession fixDom (some fixClick) false 0).executed = [] := by
  refine ⟨(actionsExecuted_spec none [] fixActSession fixDom
      (some fixClickMiss) false 0).1, by decide, ?_⟩
  exact (actionsExecuted_spec none [] fixGuideSession fixDom
      (some fixClick) false 0).2.1 rfl

/-- C1 (code bug): pausing mid-loop makes the loop exit at the top of
the next iteration, after which `acb`'s own continuation
unconditionally runs `stateManager.complete(session)`, overwriting the
`paused` status with `completed`; the subsequent `acbResume` therefore
answers `{success:false, message:'ACB not paused'}` and never re-enters
the turn loop — the documented pause-then-resume flow cannot succeed. -/
theorem pause_resume_clobber_bug :
    acbRun ⟨none⟩ "go" Mode.act ⟨"t1", some fixClick, false⟩
        [⟨some fixClick, false⟩] fixDom (some 1) 0 =
      AcbOutcome.returned ⟨true, "completed", 1, none⟩
        ⟨some fixClobberedSession⟩ ∧
    fixClobberedSession.status = Status.completed ∧
    acbResume ⟨some fixClobberedSession⟩ ⟨some fixClick, false⟩ [] fixDom =
      ResumeOutcome.returned ⟨false, "ACB not paused"⟩ false
        ⟨some fixClobberedSession⟩ := by
  refine ⟨by decide, by decide, by decide⟩

/-- C6 (code bug): `scan` resets the id counter to 0 on every run, so
when a new untagged node appears before previously tagged nodes in
document order, the second scan tags it `wl-1` while the first-scan
node 1 still carries `wl-1`: two distinct live nodes end up with the
same "stable" id, in the very same inventory.  (The first conjunct also
exhibits the stable half: already-tagged nodes keep their ids.) -/
theorem scan_counter_reset_bug :
    (scanDom [⟨1, none⟩, ⟨2, none⟩]).1 =
      [⟨1, some "wl-1"⟩, ⟨2, some "wl-2"⟩] ∧
    (scanDom (⟨3, none⟩ :: (scanDom [⟨1, none⟩, ⟨2, none⟩]).1)).2 =
      [(3, "wl-1"), (1, "wl-1"), (2, "wl-2")] ∧
    (scanDom (⟨3, none⟩ :: (scanDom [⟨1, none⟩, ⟨2, none⟩]).1)).1 =
      [⟨3, some "wl-1"⟩, ⟨1, some "wl-1"⟩, ⟨2, some "wl-2"⟩] := by
  refine ⟨by decide, by decide, by decide⟩

/-- C8 counterexample: a 500 response whose body is valid JSON without
an `error` field surfaces as "HTTP 500", not the status text "Internal
Server Error" — refuting "otherwise the status text". -/
theorem request_failure_cex :
    requestFailureMessage
        ⟨false, 500, "Internal Server Error", RespBody.jsonObj none⟩ =
      some "HTTP 500" ∧
    ("HTTP 500" : String) ≠ "Internal Server Error" := by
  refine ⟨by decide, by decide⟩

/-- C8 (amended): for a non-2xx response the surfaced failure message
is the server-provided error message when the JSON body carries a
non-empty `error` field; the status text only when the body is NOT
valid JSON (and the status text is non-empty); and the fallback
"HTTP <status>" when the JSON body lacks a usable error message or the
status text is empty. -/
theorem request_failure_spec (r : HttpResponse) (hok : r.ok = false) :
    (∀ e, r.body = RespBody.jsonObj (some e) → e ≠ "" →
      requestFailureMessage r = some e) ∧
    (r.body = RespBody.malformed → r.statusText ≠ "" →
      requestFailureMessage r = some r.statusText) ∧
    ((r.body = RespBody.jsonObj none ∨ r.body = RespBody.jsonObj (some "") ∨
        (r.body = RespBody.malformed ∧ r.statusText = "")) →
      requestFailureMessage r = some ("HTTP " ++ toString r.status)) := by
  refine ⟨?_, ?_, ?_⟩
  · intro e hb hne
    simp [requestFailureMessage, hok, errorDataField, hb, jsOr, hne]
  · intro hb hne
    simp [requestFailureMessage, hok, errorDataField, hb, jsOr, hne]
  · intro hb
    rcases hb with hb | hb | ⟨hb, hst⟩ <;>
      simp [requestFailureMessage, hok, errorDataField, hb, jsOr]
    rw [hst]
    simp

/-- Witness for C8 (amended) at a concrete input: a 404 whose JSON body
carries `error: "boom"` surfaces "boom". -/
theorem request_failure_spec_witness :
    requestFailureMessage ⟨false, 404, "Not Found",
      RespBody.jsonObj (some "boom")⟩ = some "boom" :=
  (request_failure_spec
      ⟨false, 404, "Not Found", RespBody.jsonObj (some "boom")⟩ rfl).1
    "boom" rfl (by decide)

end Weblayer
